import Mathlib

/-!
Shallow embedding of the Lamport-clock virtual machine in `src/vm.py`
(`class VirtualMachine`), together with proofs of the specification's
claims about it.

Modelling conventions:
- Python integers are `Int` (logical clocks, received message values);
  peer ports are `Nat`.
- The Python dict `self.peer_connections` is modelled by its key set, a
  `Finset Nat` (at most one live entry per peer port; the socket values
  themselves are irrelevant to the claims).
- Whether a socket write to a given peer port succeeds is supplied by an
  oracle `w : Nat → Bool`; whether the i-th connection attempt to a peer
  succeeds is supplied by an oracle `succ : Nat → Bool`.
- Exceptions never escape the modelled operations (every Python `except`
  path here is a normal return), so each operation is a total function
  from state to state paired with the list of log records it emits.
- The `self.running` flag is `true` throughout: all claims concern a
  running node.
-/

namespace VM

/-- Log records emitted by the virtual machine, one constructor per
`self.logger` call site in `vm.py` that the claims mention.  `send` and
`internal` carry the post-update clock; `receive` also carries the
post-dequeue queue length (`vm.py` line 143). -/
inductive LogEvent where
  | internal (clock : Int)
  | send (port : Nat) (clock : Int)
  | receive (clock : Int) (qlen : Nat)
  | errNotConnected (port : Nat)
  | errSendFail (port : Nat)
  deriving DecidableEq

/-- State of one `VirtualMachine`: the logical clock (`self.logical_clock`),
the inbound FIFO (`self.message_queue`, head = next message dequeued), the
configured peer ports (`self.peer_ports`), and the key set of
`self.peer_connections`. -/
structure VMState where
  clock : Int
  queue : List Int
  peer_ports : List Nat
  conns : Finset Nat
  deriving DecidableEq

/-- `VirtualMachine.update_logical_clock` (`vm.py` lines 111-116):
`max(clock, r) + 1` when a received time is given, else `clock + 1`. -/
def update_logical_clock (clock : Int) (received_time : Option Int) : Int :=
  match received_time with
  | some r => max clock r + 1
  | none => clock + 1

/-- Successive clock values produced by a sequence of
`update_logical_clock` calls starting from clock `c`. -/
def clockTrace (c : Int) : List (Option Int) → List Int
  | [] => []
  | m :: ms => update_logical_clock c m :: clockTrace (update_logical_clock c m) ms

/-- Bytes written per send: `str(self.logical_clock).encode()` (`vm.py`
line 125) — the bare decimal digits, with no length prefix or delimiter. -/
def wireMessage (clock : Int) : String := toString clock

/-- `VirtualMachine.send_message` (`vm.py` lines 118-134).  Unknown port:
log an error and return (lines 120-122).  Otherwise advance the clock,
write, and log SEND (lines 123-127); if the write raises, log the error,
close the socket and delete the map entry (lines 128-134).  Returns the
new state and the emitted log records. -/
def send_message (w : Nat → Bool) (st : VMState) (peer_port : Nat) :
    VMState × List LogEvent :=
  if peer_port ∉ st.conns then
    (st, [LogEvent.errNotConnected peer_port])
  else
    let c := update_logical_clock st.clock none
    if w peer_port then
      ({ st with clock := c }, [LogEvent.send peer_port c])
    else
      ({ st with clock := c, conns := st.conns.erase peer_port },
        [LogEvent.errSendFail peer_port])

/-- `VirtualMachine.process_message` (`vm.py` lines 136-147): dequeue at
most one message, advance the clock with it, log RECEIVE with the
post-dequeue queue length; returns whether a message was processed. -/
def process_message (st : VMState) : Bool × VMState × List LogEvent :=
  match st.queue with
  | [] => (false, st, [])
  | m :: rest =>
      let c := update_logical_clock st.clock (some m)
      (true, { st with clock := c, queue := rest },
        [LogEvent.receive c rest.length])

/-- `VirtualMachine.internal_event` (`vm.py` lines 149-152). -/
def internal_event (st : VMState) : VMState × List LogEvent :=
  let c := update_logical_clock st.clock none
  ({ st with clock := c }, [LogEvent.internal c])

/-- Sequential best-effort broadcast: the `for peer_port in
self.peer_ports: self.send_message(peer_port)` loop of the `action == 3`
branch (`vm.py` lines 176-177). -/
def broadcast (w : Nat → Bool) (st : VMState) : List Nat → VMState × List LogEvent
  | [] => (st, [])
  | p :: ps =>
      let r1 := send_message w st p
      let r2 := broadcast w r1.1 ps
      (r2.1, r1.2 ++ r2.2)

/-- One scheduler tick: the body of the `while self.running` loop in
`VirtualMachine.run` (`vm.py` lines 166-179), with the random draw
`action` passed in.  If `process_message` handled a message that is the
tick's whole action; otherwise dispatch on `action`, falling through to
`internal_event` whenever a send guard (`action == k and self.peer_ports`)
is false. -/
def tick (w : Nat → Bool) (st : VMState) (action : Nat) : VMState × List LogEvent :=
  match process_message st with
  | (true, st1, evs) => (st1, evs)
  | (false, _, _) =>
    match st.peer_ports with
    | [] => internal_event st
    | p0 :: rest =>
      if action = 1 then send_message w st p0
      else if action = 2 then
        match rest with
        | p1 :: _ => send_message w st p1
        | [] => send_message w st p0
      else if action = 3 then broadcast w st (p0 :: rest)
      else internal_event st

/-- Retry loop of `VirtualMachine.connect_to_peers` for one peer
(`vm.py` lines 98-109): `retries` attempts remain, the next attempt has
index `i`, and `succ i` says whether attempt `i` succeeds.  Returns
(connected?, attempts made, sleeps performed); the code sleeps 1 second
after every failed attempt. -/
def connectLoop (succ : Nat → Bool) : Nat → Nat → Bool × Nat × Nat
  | 0, _ => (false, 0, 0)
  | r + 1, i =>
      if succ i then (true, 1, 0)
      else
        let rec' := connectLoop succ r (i + 1)
        (rec'.1, rec'.2.1 + 1, rec'.2.2 + 1)

/-- Per-peer body of `VirtualMachine.connect_to_peers` (`vm.py` lines
95-109): a peer already in the map is skipped with no attempt; otherwise
up to 5 attempts are made and a success records the connection.  Returns
the new key set, the number of attempts made, and the number of 1-second
sleeps performed. -/
def connectOnePeer (succ : Nat → Bool) (conns : Finset Nat) (p : Nat) :
    Finset Nat × Nat × Nat :=
  if p ∈ conns then (conns, 0, 0)
  else
    let r := connectLoop succ 5 0
    (if r.1 then insert p conns else conns, r.2.1, r.2.2)

/-- `VirtualMachine.connect_to_peers` (`vm.py` lines 93-109): fold the
per-peer body over the configured peer list; `succ p i` says whether the
attempt with index `i` to peer `p` succeeds. -/
def connect_to_peers (succ : Nat → Nat → Bool) (conns : Finset Nat) :
    List Nat → Finset Nat
  | [] => conns
  | p :: ps => connect_to_peers succ (connectOnePeer (succ p) conns p).1 ps

/-- Clock values observed over `n` successive `process_message` steps,
stopping early if the queue empties. -/
def drainClocks (st : VMState) : Nat → List Int
  | 0 => []
  | n + 1 =>
      match process_message st with
      | (true, st1, _) => st1.clock :: drainClocks st1 n
      | (false, _, _) => []

/-- The clock strictly increases on every single update, received value
or not. -/
theorem update_logical_clock_lt (c : Int) (m : Option Int) :
    c < update_logical_clock c m := by
  cases m with
  | none => simp [update_logical_clock]
  | some r => simp [update_logical_clock]; omega

/-- C1: for every non-negative clock `c`, the update with no received
value yields `c + 1`; with a received value `r ≥ 0` it yields
`max c r + 1`; in both cases the result is strictly greater than `c`,
and in the second also strictly greater than `r`. -/
theorem clock_update_rule (c r : Int) (hc : 0 ≤ c) (hr : 0 ≤ r) :
    update_logical_clock c none = c + 1 ∧
    update_logical_clock c (some r) = max c r + 1 ∧
    c < update_logical_clock c none ∧
    c < update_logical_clock c (some r) ∧
    r < update_logical_clock c (some r) := by
  refine ⟨rfl, rfl, ?_, ?_, ?_⟩ <;> simp [update_logical_clock] <;> omega

theorem clock_update_rule_witness :
    update_logical_clock 3 none = 4 ∧
    update_logical_clock 3 (some 7) = max 3 7 + 1 ∧
    (3 : Int) < update_logical_clock 3 none ∧
    (3 : Int) < update_logical_clock 3 (some 7) ∧
    (7 : Int) < update_logical_clock 3 (some 7) :=
  clock_update_rule 3 7 (by decide) (by decide)

/-- C2: across any finite sequence of clock updates (each with no received
value or a non-negative one), each successive clock value is strictly
greater than the one before it. -/
theorem clock_strict_mono (c : Int) (msgs : List (Option Int))
    (h : ∀ r : Int, some r ∈ msgs → 0 ≤ r) :
    List.Chain' (fun a b => a < b) (c :: clockTrace c msgs) := by
  induction msgs generalizing c with
  | nil => simp [clockTrace]
  | cons m ms ih =>
      have tail := ih (update_logical_clock c m)
        (fun r hr => h r (List.mem_cons_of_mem _ hr))
      exact List.Chain'.cons (update_logical_clock_lt c m) tail

theorem clock_strict_mono_witness :
    List.Chain' (fun a b => a < b)
      ((0 : Int) :: clockTrace 0 [none, some 5, none]) :=
  clock_strict_mono 0 [none, some 5, none]
    (by intro r hr; simp at hr; omega)

/-- C3: from clock 0 with the FIFO holding `[2, 7, 3]`, three successive
dequeue-and-process steps yield clock values 3, 8, 9 in order. -/
theorem fifo_drain_2_7_3 :
    drainClocks ⟨0, [2, 7, 3], [], ∅⟩ 3 = [3, 8, 9] := by
  decide

/-- C4, counterexample: with no peers configured, an empty FIFO and draw
1, the tick is not a no-op — the `elif` chain falls through to
`internal_event()` (`vm.py` lines 178-179), so the clock becomes 1 and an
INTERNAL record is logged. -/
theorem tick_action1_no_peers_counterexample :
    tick (fun _ => true) ⟨0, [], [], ∅⟩ 1 = (⟨1, [], [], ∅⟩, [LogEvent.internal 1]) ∧
    ¬ ((tick (fun _ => true) ⟨0, [], [], ∅⟩ 1).1.clock = 0 ∧
       (tick (fun _ => true) ⟨0, [], [], ∅⟩ 1).2 = []) := by
  decide

/-- C4, amended: on a tick with an empty inbound FIFO and draw 1, the node
sends to the first configured peer; if no peers are configured, the tick
instead performs an internal event (clock incremented by 1, INTERNAL
logged), not a no-op. -/
theorem tick_action1_dispatch (w : Nat → Bool) (st : VMState)
    (hq : st.queue = []) :
    (∀ p ps, st.peer_ports = p :: ps → tick w st 1 = send_message w st p) ∧
    (st.peer_ports = [] →
      tick w st 1 = internal_event st ∧
      (tick w st 1).1.clock = st.clock + 1 ∧
      (tick w st 1).2 = [LogEvent.internal (st.clock + 1)]) := by
  have hpm : process_message st = (false, st, []) := by
    simp [process_message, hq]
  constructor
  · intro p ps hps
    simp [tick, hpm, hps]
  · intro h
    simp [tick, hpm, h, internal_event, update_logical_clock]

theorem tick_action1_dispatch_witness :
    tick (fun _ => true) ⟨0, [], [9], {9}⟩ 1 =
      send_message (fun _ => true) ⟨0, [], [9], {9}⟩ 9 :=
  (tick_action1_dispatch (fun _ => true) ⟨0, [], [9], {9}⟩ rfl).1 9 [] rfl

/-- C5: the wire encoding actually used by `send_message` (`vm.py` line
125) is the bare decimal string with no length prefix or delimiter, so
two consecutive writes can coalesce into bytes that decode as a different
pair of sends (or as a single send): framing is absent. -/
theorem wire_unframed_ambiguous :
    wireMessage 1 ++ wireMessage 12 = wireMessage 11 ++ wireMessage 2 ∧
    ¬ ((1 : Int) = 11 ∧ (12 : Int) = 2) := by
  exact ⟨rfl, by decide⟩

/-- C6: when the write to a connected peer fails, `send_message` logs the
error, removes exactly that peer's entry from the connection map, leaves
every other port's membership unchanged, and adds no entry (no
reconnection attempt). -/
theorem send_failure_prunes (w : Nat → Bool) (st : VMState) (port : Nat)
    (hmem : port ∈ st.conns) (hfail : w port = false) :
    (send_message w st port).2 = [LogEvent.errSendFail port] ∧
    (send_message w st port).1.conns = st.conns.erase port ∧
    port ∉ (send_message w st port).1.conns ∧
    (∀ q, q ≠ port → (q ∈ (send_message w st port).1.conns ↔ q ∈ st.conns)) ∧
    (send_message w st port).1.conns ⊆ st.conns := by
  refine ⟨?_, ?_, ?_, ?_, ?_⟩ <;>
    simp [send_message, hmem, hfail, Finset.mem_erase]
  · exact fun q hq _ => hq
  · exact Finset.erase_subset _ _

theorem send_failure_prunes_witness :
    (send_message (fun _ => false) ⟨0, [], [], {5, 7}⟩ 5).2 =
      [LogEvent.errSendFail 5] ∧
    (7 ∈ (send_message (fun _ => false) ⟨0, [], [], {5, 7}⟩ 5).1.conns ↔
      7 ∈ ({5, 7} : Finset Nat)) :=
  ⟨(send_failure_prunes (fun _ => false) ⟨0, [], [], {5, 7}⟩ 5
      (by decide) rfl).1,
   (send_failure_prunes (fun _ => false) ⟨0, [], [], {5, 7}⟩ 5
      (by decide) rfl).2.2.2.1 7 (by decide)⟩

/-- Bound on the number of attempts made by the retry loop. -/
theorem connectLoop_attempts_le (succ : Nat → Bool) :
    ∀ r i, (connectLoop succ r i).2.1 ≤ r := by
  intro r
  induction r with
  | zero => intro i; simp [connectLoop]
  | succ r ih =>
      intro i
      by_cases h : succ i = true
      · simp [connectLoop, h]
      · simp only [Bool.not_eq_true] at h
        simp [connectLoop, h]
        exact ih (i + 1)

/-- When every attempt fails, the retry loop exhausts its budget:
`r` attempts, `r` sleeps, not connected. -/
theorem connectLoop_all_fail (succ : Nat → Bool) :
    ∀ r i, (∀ k, k < r → succ (i + k) = false) →
      connectLoop succ r i = (false, r, r) := by
  intro r
  induction r with
  | zero => intro i _; rfl
  | succ r ih =>
      intro i h
      have h0 : succ i = false := by simpa using h 0 (Nat.succ_pos r)
      have hrec := ih (i + 1) (fun k hk => by
        have := h (k + 1) (Nat.succ_lt_succ hk)
        simpa [Nat.add_assoc, Nat.add_comm 1 k] using this)
      simp [connectLoop, h0, hrec]

/-- When the first success is the attempt with offset `k` (all earlier
ones fail), the retry loop stops there: `k + 1` attempts, `k` sleeps,
connected. -/
theorem connectLoop_first_success (succ : Nat → Bool) :
    ∀ k r i, k < r → (∀ j, j < k → succ (i + j) = false) →
      succ (i + k) = true → connectLoop succ r i = (true, k + 1, k) := by
  intro k
  induction k with
  | zero =>
      intro r i hr _ hs
      cases r with
      | zero => omega
      | succ r' => simp at hs; simp [connectLoop, hs]
  | succ k ih =>
      intro r i hr hj hs
      cases r with
      | zero => omega
      | succ r' =>
          have h0 : succ i = false := by simpa using hj 0 (Nat.succ_pos k)
          have hrec := ih r' (i + 1) (Nat.lt_of_succ_lt_succ hr)
            (fun j hjk => by
              have := hj (j + 1) (Nat.succ_lt_succ hjk)
              simpa [Nat.add_assoc, Nat.add_comm 1 j] using this)
            (by
              have : i + 1 + k = i + (k + 1) := by omega
              rw [this]; exact hs)
          simp [connectLoop, h0, hrec]

/-- C7: per configured peer, `connect_to_peers` skips a peer already in
the map with no attempt; otherwise it makes at most 5 attempts with one
backoff sleep per failure, records the connection and stops on the first
success, and leaves the peer absent when all 5 attempts fail. -/
theorem connect_retry_budget (succ : Nat → Bool) (conns : Finset Nat)
    (p : Nat) :
    (p ∈ conns → connectOnePeer succ conns p = (conns, 0, 0)) ∧
    (p ∉ conns → (connectOnePeer succ conns p).2.1 ≤ 5) ∧
    (p ∉ conns → ∀ i, i < 5 → (∀ j, j < i → succ j = false) →
      succ i = true →
      connectOnePeer succ conns p = (insert p conns, i + 1, i)) ∧
    (p ∉ conns → (∀ i, i < 5 → succ i = false) →
      connectOnePeer succ conns p = (conns, 5, 5) ∧
      p ∉ (connectOnePeer succ conns p).1) := by
  refine ⟨?_, ?_, ?_, ?_⟩
  · intro h; simp [connectOnePeer, h]
  · intro h
    simp [connectOnePeer, h]
    exact connectLoop_attempts_le succ 5 0
  · intro h i hi hj hs
    have hloop := connectLoop_first_success succ i 5 0 hi
      (fun j hji => by simpa using hj j hji) (by simpa using hs)
    simp [connectOnePeer, h, hloop]
  · intro h hall
    have hloop := connectLoop_all_fail succ 5 0
      (fun k hk => by simpa using hall k hk)
    simp [connectOnePeer, h, hloop]

theorem connect_retry_budget_witness :
    connectOnePeer (fun i => i == 2) ∅ 4 = (insert 4 ∅, 3, 2) :=
  (connect_retry_budget (fun i => i == 2) ∅ 4).2.2.1 (by decide) 2
    (by decide) (by decide) rfl

/-- C8: sending to a port with no entry in the connection map logs an
error and returns normally, with the state untouched (the operation is a
total function: no exception escapes). -/
theorem send_unconnected_logs (w : Nat → Bool) (st : VMState) (port : Nat)
    (h : port ∉ st.conns) :
    send_message w st port = (st, [LogEvent.errNotConnected port]) := by
  simp [send_message, h]

theorem send_unconnected_logs_witness :
    send_message (fun _ => true) ⟨0, [], [], ∅⟩ 3 =
      (⟨0, [], [], ∅⟩, [LogEvent.errNotConnected 3]) :=
  send_unconnected_logs (fun _ => true) ⟨0, [], [], ∅⟩ 3 (by decide)

/-- C9: when the write to a connected peer fails, the clock has already
been incremented by 1 (the update precedes the write and is not rolled
back) and no SEND record is emitted for the attempt. -/
theorem send_failure_clock_incremented (w : Nat → Bool) (st : VMState)
    (port : Nat) (hmem : port ∈ st.conns) (hfail : w port = false) :
    (send_message w st port).1.clock = st.clock + 1 ∧
    ∀ q c, LogEvent.send q c ∉ (send_message w st port).2 := by
  constructor
  · simp [send_message, hmem, hfail, update_logical_clock]
  · intro q c
    simp [send_message, hmem, hfail]

theorem send_failure_clock_incremented_witness :
    (send_message (fun _ => false) ⟨0, [], [], {5}⟩ 5).1.clock = 0 + 1 ∧
    LogEvent.send 5 1 ∉ (send_message (fun _ => false) ⟨0, [], [], {5}⟩ 5).2 :=
  ⟨(send_failure_clock_incremented (fun _ => false) ⟨0, [], [], {5}⟩ 5
      (by decide) rfl).1,
   (send_failure_clock_incremented (fun _ => false) ⟨0, [], [], {5}⟩ 5
      (by decide) rfl).2 5 1⟩

/-- C10: sending to a port with no entry in the connection map leaves the
whole state unchanged — in particular the clock and the connection map. -/
theorem send_unconnected_frame (w : Nat → Bool) (st : VMState) (port : Nat)
    (h : port ∉ st.conns) :
    (send_message w st port).1.clock = st.clock ∧
    (send_message w st port).1.conns = st.conns ∧
    (send_message w st port).1 = st := by
  simp [send_message, h]

theorem send_unconnected_frame_witness :
    (send_message (fun _ => true) ⟨2, [], [], {9}⟩ 4).1.clock = 2 ∧
    (send_message (fun _ => true) ⟨2, [], [], {9}⟩ 4).1.conns =
      ({9} : Finset Nat) ∧
    (send_message (fun _ => true) ⟨2, [], [], {9}⟩ 4).1 =
      (⟨2, [], [], {9}⟩ : VMState) :=
  send_unconnected_frame (fun _ => true) ⟨2, [], [], {9}⟩ 4 (by decide)

end VM
